import Mathlib

set_option maxHeartbeats 1000000

namespace EmployeesApi

/-- A JavaScript runtime value, as far as the validation helper and the employee
routes observe one: `typeof`, truthiness, strict equality, and the string
operations `toLowerCase`/`toUpperCase` on string values. -/
inductive JsValue where
  | undef
  | null
  | bool (b : Bool)
  | num (n : Int)
  | str (s : String)
deriving DecidableEq, Repr

/-- The JavaScript `typeof` operator restricted to the values of `JsValue`
(`typeof null` is `"object"` in JavaScript). -/
def typeofJs : JsValue → String
  | JsValue.undef => "undefined"
  | JsValue.null => "object"
  | JsValue.bool _ => "boolean"
  | JsValue.num _ => "number"
  | JsValue.str _ => "string"

/-- JavaScript truthiness of a `JsValue`: `undefined`, `null`, `false`, `0` and
`""` are falsy, everything else is truthy. -/
def truthy : JsValue → Bool
  | JsValue.undef => false
  | JsValue.null => false
  | JsValue.bool b => b
  | JsValue.num n => !(n == 0)
  | JsValue.str s => !(s == "")

/-- String conversion of a `JsValue` as performed by `Array.prototype.join`
(which renders `undefined` and `null` as the empty string). -/
def jsValueToString : JsValue → String
  | JsValue.undef => ""
  | JsValue.null => ""
  | JsValue.bool b => if b then "true" else "false"
  | JsValue.num n => toString n
  | JsValue.str s => s

/-- ASCII lower-casing of a string, written as a structural map over the
character list (so that concrete instances reduce in the kernel); models
`String.prototype.toLowerCase` on the basic-latin strings this program
handles. -/
def strLower (s : String) : String :=
  String.mk (s.data.map Char.toLower)

/-- ASCII upper-casing of a string; models `String.prototype.toUpperCase` on
the basic-latin strings this program handles. -/
def strUpper (s : String) : String :=
  String.mk (s.data.map Char.toUpper)

/-- `value.toLowerCase()` on a string value. The routes only apply it to values
that already passed the `dataType: 'string'` check, so the non-string branches
are never reached on the inputs the program produces. -/
def jsToLowerString : JsValue → String
  | JsValue.str s => strLower s
  | _ => ""

/-- `value.toUpperCase()` on a string value; same caveat as `jsToLowerString`. -/
def jsToUpperString : JsValue → String
  | JsValue.str s => strUpper s
  | _ => ""

/-- A JSON-like object: an association list from property names to values, with
at most one entry per key in every object the program builds. -/
abbrev Record := List (String × JsValue)

/-- `obj.hasOwnProperty(k)`. -/
def hasOwn (r : Record) (k : String) : Bool :=
  r.any (fun p => p.1 == k)

/-- `obj[k]`: the value stored at `k`, or `undefined` when the key is absent. -/
def getProp (r : Record) (k : String) : JsValue :=
  match r.find? (fun p => p.1 == k) with
  | some p => p.2
  | none => JsValue.undef

/-- The `options.required` object: an optional boolean per HTTP verb key; a
missing key (`none`) models the key being absent from the object. -/
structure RequiredOpt where
  post : Option Bool := none
  put : Option Bool := none
deriving DecidableEq, Repr

/-- The `options` bag accepted by `validateField` (src/unnamed/part_000).
`none` models an absent property on the options object. -/
structure Options where
  dataType : Option String := none
  allowedValues : Option (List JsValue) := none
  allowedValuesCaseSensitive : Option Bool := none
  custom : Option (String → JsValue → Option String) := none
  reqMethod : Option String := none
  required : Option RequiredOpt := none

/-- One entry of a validation schema: a field name with its options. -/
structure FieldValidation where
  fieldName : String
  options : Options

/-- `validateFieldExistence` (src/unnamed/part_000 lines 58-62). -/
def validateFieldExistence (obj : Record) (fieldName : String) : Option String :=
  if hasOwn obj fieldName then none
  else some ("Required property [" ++ fieldName ++ "] is missing from the request payload.")

/-- `validateFieldType` (src/unnamed/part_000 lines 64-68). -/
def validateFieldType (obj : Record) (fieldName : String) (dataType : String) : Option String :=
  if typeofJs (getProp obj fieldName) == dataType then none
  else some ("The value of property [" ++ fieldName ++ "] is not the correct data type. It should be [" ++ dataType ++ "].")

/-- Lower-case a string entry of `allowedValues`; other entries are unchanged
(src/unnamed/part_000 lines 76-82). -/
def lowerIfString : JsValue → JsValue
  | JsValue.str s => JsValue.str (strLower s)
  | v => v

/-- `allowedValues.join(', ')`. -/
def joinJsValues (vs : List JsValue) : String :=
  String.intercalate ", " (vs.map jsValueToString)

/-- `validateFieldValueEnum` (src/unnamed/part_000 lines 70-92): with
case-insensitive matching both the allowed values and the field value are
lower-cased before the `indexOf` membership test; the error message always
echoes the original, non-normalized list. -/
def validateFieldValueEnum (obj : Record) (fieldName : String) (allowedValues : List JsValue)
    (caseSensitive : Bool) : Option String :=
  let updatedAllowedValues := if caseSensitive then allowedValues else allowedValues.map lowerIfString
  let updatedFieldValue := if caseSensitive then getProp obj fieldName else lowerIfString (getProp obj fieldName)
  if updatedAllowedValues.contains updatedFieldValue then none
  else some ("The value of property [" ++ fieldName ++ "] is invalid. It should be one of " ++ joinJsValues allowedValues ++ ".")

/-- Requiredness resolution (src/unnamed/part_000 lines 19-24): required
defaults to `true`; when both `options.required` and `options.reqMethod` are
present and the lower-cased method is a key of the `required` object, that
entry decides. -/
def resolveRequired (options : Options) : Bool :=
  match options.required, options.reqMethod with
  | some req, some reqMethod =>
      let m := strLower reqMethod
      if m == "post" then
        match req.post with
        | some b => b
        | none => true
      else if m == "put" then
        match req.put with
        | some b => b
        | none => true
      else true
  | _, _ => true

/-- The type-check step of `validateField` (lines 35-40): guarded by the
truthiness of `options.dataType`, so an absent or empty type tag skips the
check. -/
def runDataTypeCheck (obj : Record) (fieldName : String) (options : Options) : Option String :=
  match options.dataType with
  | some dt => if dt == "" then none else validateFieldType obj fieldName dt
  | none => none

/-- The enumeration step of `validateField` (lines 42-48): runs only when
`options.allowedValues` is set; case sensitivity defaults to `true` when the
`allowedValuesCaseSensitive` key is absent. -/
def runEnumCheck (obj : Record) (fieldName : String) (options : Options) : Option String :=
  match options.allowedValues with
  | some av =>
      let caseSensitive :=
        match options.allowedValuesCaseSensitive with
        | some b => b
        | none => true
      validateFieldValueEnum obj fieldName av caseSensitive
  | none => none

/-- The custom-callback step of `validateField` (lines 50-55). -/
def runCustomCheck (obj : Record) (fieldName : String) (options : Options) : Option String :=
  match options.custom with
  | some c => c fieldName (getProp obj fieldName)
  | none => none

/-- Truthiness of a `string | undefined` validation result, as the source's
`if (x)` tests observe it: `undefined` and the empty string are falsy. Every
message the validators in this repository build is a non-empty string. -/
def msgTruthy : Option String → Bool
  | none => false
  | some s => !(s == "")

/-- `validateField` (src/unnamed/part_000 lines 18-56): existence first (a
required missing field fails with the existence message, a non-required
missing field succeeds and skips every later check), then type, then
enumeration, then the custom callback, returning the first truthy result. -/
def validateField (obj : Record) (fieldName : String) (options : Options) : Option String :=
  let isRequired := resolveRequired options
  let existence := validateFieldExistence obj fieldName
  if isRequired && msgTruthy existence then existence
  else if !isRequired && msgTruthy existence then none
  else
    let dataType := runDataTypeCheck obj fieldName options
    if msgTruthy dataType then dataType
    else
      let allowedValues := runEnumCheck obj fieldName options
      if msgTruthy allowedValues then allowedValues
      else
        let custom := runCustomCheck obj fieldName options
        if msgTruthy custom then custom
        else none

/-- Instrumented variant of `validateField`: same result, paired with the list
of field names on which the custom callback was actually invoked (`[fieldName]`
exactly when control reaches the `options.custom` call, `[]` otherwise). -/
def validateFieldT (obj : Record) (fieldName : String) (options : Options) :
    Option String × List String :=
  (validateField obj fieldName options,
    if !msgTruthy (validateFieldExistence obj fieldName)
        && !msgTruthy (runDataTypeCheck obj fieldName options)
        && !msgTruthy (runEnumCheck obj fieldName options)
        && options.custom.isSome then [fieldName]
    else [])

example : validateField [("a", JsValue.str "x")] "a" { dataType := some "string" } = none := by decide
example : validateField [] "a" { dataType := some "string" } =
    some "Required property [a] is missing from the request payload." := by decide

/-- A calendar date, used to model both a parsed `hireDate` and the current
date observed by `moment()`. -/
structure CalDate where
  year : Nat
  month : Nat
  day : Nat
deriving DecidableEq, Repr

/-- Key for comparing calendar dates; monotone in (year, month, day) for the
in-range dates the parser produces. -/
def dateRank (d : CalDate) : Nat :=
  d.year * 10000 + d.month * 100 + d.day

/-- Gregorian leap-year rule, as applied by the `moment` date library. -/
def isLeapYear (y : Nat) : Bool :=
  y % 4 == 0 && (!(y % 100 == 0) || y % 400 == 0)

/-- Number of days in a month of the Gregorian calendar. -/
def daysInMonth (y m : Nat) : Nat :=
  if m == 1 || m == 3 || m == 5 || m == 7 || m == 8 || m == 10 || m == 12 then 31
  else if m == 4 || m == 6 || m == 9 || m == 11 then 30
  else if isLeapYear y then 29 else 28

/-- Numeric value of a decimal digit character. -/
def digitVal (c : Char) : Nat := c.toNat - 48

/-- Strict parsing of a string against the `YYYY-MM-DD` format, modelling
`moment(value, 'YYYY-MM-DD', true)`: exactly ten characters, digits in the
digit positions, dashes in positions 4 and 7, and a month/day pair that names
an actual Gregorian calendar date. -/
def parseHireDate (s : String) : Option CalDate :=
  match s.data with
  | [y1, y2, y3, y4, c1, m1, m2, c2, d1, d2] =>
      if c1 == '-' && c2 == '-' && [y1, y2, y3, y4, m1, m2, d1, d2].all Char.isDigit then
        let y := ((digitVal y1 * 10 + digitVal y2) * 10 + digitVal y3) * 10 + digitVal y4
        let m := digitVal m1 * 10 + digitVal m2
        let d := digitVal d1 * 10 + digitVal d2
        if 1 ≤ m ∧ m ≤ 12 ∧ 1 ≤ d ∧ d ≤ daysInMonth y m then some { year := y, month := m, day := d }
        else none
      else none
  | _ => none

example : parseHireDate "2020-02-29" = some { year := 2020, month := 2, day := 29 } := by decide
example : parseHireDate "2019-02-29" = none := by decide
example : parseHireDate "03-01-2020" = none := by decide

/-- A stored employee record, the shape produced by
`createDatabaseEntryFromReqBody` (src/unnamed/part_001 lines 291-305): the
`quote`/`joke` fields are `none` when the corresponding key is absent from the
stored object. `role` is always a string there (`reqBody.role.toUpperCase()`). -/
structure Employee where
  firstName : JsValue
  lastName : JsValue
  hireDate : JsValue
  role : String
  quote : Option JsValue := none
  joke : Option JsValue := none
deriving DecidableEq, Repr

/-- The in-memory `DATABASE` object: an association list from id to employee,
with at most one entry per id in every store the program builds. -/
abbrev Store := List (String × Employee)

/-- `DATABASE.hasOwnProperty(id)`. -/
def hasId (db : Store) (id : String) : Bool :=
  db.any (fun p => p.1 == id)

/-- `DATABASE[id] = v`: replace the entry at `id` in place if present,
otherwise append a new one (JavaScript objects keep the original key position
on overwrite). -/
def setId : Store → String → Employee → Store
  | [], id, v => [(id, v)]
  | (k, w) :: rest, id, v =>
      if k == id then (id, v) :: rest else (k, w) :: setId rest id v

/-- `delete DATABASE[id]`. -/
def deleteId (db : Store) (id : String) : Store :=
  db.filter (fun p => !(p.1 == id))

/-- The `hireDate` custom callback (src/unnamed/part_001 lines 126-135):
strict `YYYY-MM-DD` parse, then a not-in-the-future check against the current
date `now` (a date-only comparison: the parsed date is at the start of its
day, so `isAfter(moment())` holds exactly when the parsed date is a later
calendar day than today's). -/
def hireDateCustom (now : CalDate) : String → JsValue → Option String :=
  fun fieldName value =>
    match value with
    | JsValue.str s =>
        match parseHireDate s with
        | none =>
            some ("The value [" ++ s ++ "] for property [" ++ fieldName ++ "] is invalid. The required format is [YYYY-MM-DD].")
        | some d =>
            if dateRank now < dateRank d then
              some ("The value [" ++ s ++ "] for property [" ++ fieldName ++ "] is invalid, because it is in the future.")
            else none
    | v =>
        some ("The value [" ++ jsValueToString v ++ "] for property [" ++ fieldName ++ "] is invalid. The required format is [YYYY-MM-DD].")

/-- The CEO-uniqueness message (src/unnamed/part_001 line 149). -/
def ceoUniquenessMessage : String :=
  "This employee cannot be created because there is already an employee with the [CEO] role and there can only be one."

/-- `Object.keys(DATABASE).find((id) => DATABASE[id].role.toLowerCase() === 'ceo')`:
the first stored id whose record's role lower-cases to `"ceo"`. -/
def findCeoKey (db : Store) : Option String :=
  (db.find? (fun p => strLower p.2.role == "ceo")).map (fun p => p.1)

/-- Truthiness of the `ceoExists` value above: a found key is truthy exactly
when it is a non-empty string. -/
def ceoKeyTruthy (db : Store) : Bool :=
  match findCeoKey db with
  | some k => !(k == "")
  | none => false

/-- The `role` custom callback (src/unnamed/part_001 lines 144-152): when the
candidate value lower-cases to `"ceo"`, scan the store (with no exclusion for
a record being updated) and fail if a stored CEO is found. -/
def roleCustom (db : Store) : String → JsValue → Option String :=
  fun _fieldName value =>
    if jsToLowerString value == "ceo" then
      if ceoKeyTruthy db then some ceoUniquenessMessage else none
    else none

/-- The `allowedValues` list of the `role` rule (src/unnamed/part_001 line 142). -/
def roleAllowedValues : List JsValue :=
  [JsValue.str "CEO", JsValue.str "VP", JsValue.str "MANAGER", JsValue.str "LACKEY"]

/-- The `role` rule's options (src/unnamed/part_001 lines 139-153). -/
def roleOptions (db : Store) : Options :=
  { dataType := some "string"
    allowedValues := some roleAllowedValues
    allowedValuesCaseSensitive := some false
    custom := some (roleCustom db) }

/-- `employeeFieldValidations` (src/unnamed/part_001 lines 109-175),
parameterized by the module state its callbacks close over: the `DATABASE`
object and the current date observed by `moment()`. -/
def employeeFieldValidations (db : Store) (now : CalDate) : List FieldValidation :=
  [ { fieldName := "firstName", options := { dataType := some "string" } },
    { fieldName := "lastName", options := { dataType := some "string" } },
    { fieldName := "hireDate", options := { dataType := some "string", custom := some (hireDateCustom now) } },
    { fieldName := "role", options := roleOptions db },
    { fieldName := "quote", options := { dataType := some "string", required := some { post := some false, put := some true } } },
    { fieldName := "joke", options := { dataType := some "string", required := some { post := some false, put := some true } } } ]

/-- The loop of `validateEmployee` (src/unnamed/part_001 lines 314-329),
generalized to an arbitrary rule list: each rule's options are spread together
with `reqMethod := req.method`, and the first error stops the loop. -/
def validateRecord (body : Record) (schema : List FieldValidation) (reqMethod : String) : Option String :=
  match schema with
  | [] => none
  | v :: rest =>
      match validateField body v.fieldName { v.options with reqMethod := some reqMethod } with
      | some e => some e
      | none => validateRecord body rest reqMethod

/-- Instrumented variant of `validateRecord`: same result, paired with the
concatenated custom-invocation traces of the rules actually evaluated. -/
def validateRecordT (body : Record) (schema : List FieldValidation) (reqMethod : String) :
    Option String × List String :=
  match schema with
  | [] => (none, [])
  | v :: rest =>
      let fr := validateFieldT body v.fieldName { v.options with reqMethod := some reqMethod }
      match fr.1 with
      | some e => (some e, fr.2)
      | none =>
          let rr := validateRecordT body rest reqMethod
          (rr.1, fr.2 ++ rr.2)

/-- `validateEmployee` applied to a request with method `reqMethod` and body
`body`: the first validation error, or `none` when the payload is valid (the
source function also sends the 400 response; here the routes do that with the
returned error). -/
def validateEmployee (db : Store) (now : CalDate) (body : Record) (reqMethod : String) : Option String :=
  validateRecord body (employeeFieldValidations db now) reqMethod

/-- An HTTP response as the routes build one: a status code and the optional
`result` field of the JSON body. -/
structure ApiResponse where
  status : Nat
  result : Option String := none
deriving DecidableEq, Repr

/-- `createDatabaseEntryFromReqBody` (src/unnamed/part_001 lines 291-305):
copy the four supported fields (upper-casing the role) and copy `quote`/`joke`
only when their value is truthy. -/
def createDatabaseEntryFromReqBody (reqBody : Record) : Employee :=
  { firstName := getProp reqBody "firstName"
    lastName := getProp reqBody "lastName"
    hireDate := getProp reqBody "hireDate"
    role := jsToUpperString (getProp reqBody "role")
    quote := if truthy (getProp reqBody "quote") then some (getProp reqBody "quote") else none
    joke := if truthy (getProp reqBody "joke") then some (getProp reqBody "joke") else none }

/-- `router.post('')` (src/unnamed/part_001 lines 206-238): validate, then
store the entry with the externally fetched quote and joke and a fresh id
(`newId` stands for the `uuid()` result after the collision-retry loop), and
answer 201; on a validation error answer 400 with the error and leave the
store unchanged. -/
def postEmployee (db : Store) (now : CalDate) (body : Record) (newId : String)
    (quoteText jokeText : String) : ApiResponse × Store :=
  match validateEmployee db now body "POST" with
  | some err => ({ status := 400, result := some err }, db)
  | none =>
      let newEmployee := createDatabaseEntryFromReqBody body
      let stored := { newEmployee with quote := some (JsValue.str quoteText), joke := some (JsValue.str jokeText) }
      ({ status := 201 }, setId db newId stored)

/-- `router.get('/:id')` (src/unnamed/part_001 lines 189-201). -/
def getEmployeeById (db : Store) (id : String) : ApiResponse × Option (Employee × String) :=
  match db.find? (fun p => p.1 == id) with
  | some p => ({ status := 200 }, some (p.2, id))
  | none => ({ status := 404, result := some ("Resource with id [" ++ id ++ "] not found.") }, none)

/-- `router.put('/:id')` (src/unnamed/part_001 lines 247-268): 404 before any
validation when the id is absent; otherwise validate and either answer 400
with the first error or overwrite the entry and answer 204. -/
def putEmployee (db : Store) (now : CalDate) (id : String) (body : Record) : ApiResponse × Store :=
  if hasId db id = false then
    ({ status := 404, result := some ("A resource with id [" ++ id ++ "] does not exist, and therefore cannot be updated.") }, db)
  else
    match validateEmployee db now body "PUT" with
    | some err => ({ status := 400, result := some err }, db)
    | none => ({ status := 204 }, setId db id (createDatabaseEntryFromReqBody body))

/-- Instrumented variant of `putEmployee`: same response and store, paired
with the list of fields whose custom callbacks were invoked while handling the
request. -/
def putEmployeeT (db : Store) (now : CalDate) (id : String) (body : Record) :
    (ApiResponse × Store) × List String :=
  if hasId db id = false then
    (({ status := 404, result := some ("A resource with id [" ++ id ++ "] does not exist, and therefore cannot be updated.") }, db), [])
  else
    let vr := validateRecordT body (employeeFieldValidations db now) "PUT"
    match vr.1 with
    | some err => (({ status := 400, result := some err }, db), vr.2)
    | none => (({ status := 204 }, setId db id (createDatabaseEntryFromReqBody body)), vr.2)

/-- `router.delete('/:id')` (src/unnamed/part_001 lines 276-282): remove the
entry when present; answer 204 unconditionally. -/
def deleteEmployee (db : Store) (id : String) : ApiResponse × Store :=
  ({ status := 204 }, if hasId db id then deleteId db id else db)

/-- Whether a stored record holds the CEO role, compared the way the role
custom callback compares stored roles. -/
def isCeoEmp (e : Employee) : Bool :=
  strLower e.role == "ceo"

/-- Number of stored records holding the CEO role. -/
def ceoCount (db : Store) : Nat :=
  (db.filter (fun p => isCeoEmp p.2)).length

/-- The stores reachable from the empty `DATABASE` by sequences of the three
mutating routes. The `newId` of a create stands for the `uuid()` result, which
is never the empty string. -/
inductive Reachable : Store → Prop where
  | empty : Reachable []
  | post (db : Store) (now : CalDate) (body : Record) (newId : String)
      (quoteText jokeText : String) (h : Reachable db) (hid : newId ≠ "") :
      Reachable (postEmployee db now body newId quoteText jokeText).2
  | put (db : Store) (now : CalDate) (id : String) (body : Record) (h : Reachable db) :
      Reachable (putEmployee db now id body).2
  | del (db : Store) (id : String) (h : Reachable db) :
      Reachable (deleteEmployee db id).2

section SharedLemmas

/-- An absent key reads back as `undefined`. -/
theorem getProp_of_not_hasOwn {r : Record} {k : String} (h : hasOwn r k = false) :
    getProp r k = JsValue.undef := by
  have hf : r.find? (fun p => p.1 == k) = none := by
    rw [List.find?_eq_none]
    intro p hp
    have := List.any_eq_false.mp h p hp
    simpa using this
  simp [getProp, hf]

/-- A key that reads back as a string is present. -/
theorem hasOwn_of_getProp_str {r : Record} {k : String} {s : String}
    (h : getProp r k = JsValue.str s) : hasOwn r k = true := by
  by_contra hc
  have hfalse : hasOwn r k = false := by
    cases hx : hasOwn r k
    · rfl
    · exact absurd hx hc
  rw [getProp_of_not_hasOwn hfalse] at h
  exact JsValue.noConfusion h

/-- Only string values have `typeof` equal to `"string"`. -/
theorem typeofJs_eq_string {v : JsValue} (h : typeofJs v = "string") :
    ∃ s, v = JsValue.str s := by
  cases v <;> simp [typeofJs] at h ⊢

/-- `validateRecord` over a concatenation: the second half is reached only
when the whole first half validates. -/
theorem validateRecord_append (body : Record) (a b : List FieldValidation) (m : String) :
    validateRecord body (a ++ b) m =
      match validateRecord body a m with
      | some e => some e
      | none => validateRecord body b m := by
  induction a with
  | nil => simp [validateRecord]
  | cons x xs ih =>
      simp only [List.cons_append, validateRecord]
      cases validateField body x.fieldName { x.options with reqMethod := some m } <;> simp [ih]

/-- A schema that validates as a whole validates each of its rules. -/
theorem validateRecord_none_mem {body : Record} {schema : List FieldValidation} {m : String}
    (h : validateRecord body schema m = none) :
    ∀ fv ∈ schema, validateField body fv.fieldName { fv.options with reqMethod := some m } = none := by
  induction schema with
  | nil => intro fv hfv; cases hfv
  | cons x xs ih =>
      intro fv hfv
      rw [validateRecord] at h
      cases hx : validateField body x.fieldName { x.options with reqMethod := some m } with
      | some e => rw [hx] at h; cases h
      | none =>
          rw [hx] at h
          cases hfv with
          | head => exact hx
          | tail _ hmem => exact ih h fv hmem

/-- The result component of the instrumented record validation agrees with
`validateRecord`. -/
theorem validateRecordT_fst (body : Record) (schema : List FieldValidation) (m : String) :
    (validateRecordT body schema m).1 = validateRecord body schema m := by
  induction schema with
  | nil => rfl
  | cons x xs ih =>
      rw [validateRecordT, validateRecord]
      cases h : validateField body x.fieldName { x.options with reqMethod := some m } <;>
        simp [validateFieldT, h, ih]

/-- Reading back the id just written returns the written record. -/
theorem getEmployeeById_setId (db : Store) (k : String) (v : Employee) :
    getEmployeeById (setId db k v) k = ({ status := 200 }, some (v, k)) := by
  induction db with
  | nil => simp [setId, getEmployeeById, List.find?]
  | cons p rest ih =>
      by_cases hk : p.1 = k
      · simp [setId, hk, getEmployeeById, List.find?]
      · have hb : (p.1 == k) = false := by simp [hk]
        simp only [setId]
        rw [if_neg (by simp [hk])]
        simp only [getEmployeeById, List.find?, hb] at ih ⊢
        exact ih

/-- Deleting an id removes it. -/
theorem hasId_deleteId (db : Store) (id : String) : hasId (deleteId db id) id = false := by
  rw [hasId, List.any_eq_false]
  intro p hp
  have := (List.mem_filter.mp hp).2
  simpa using this

/-- A present id names some entry. -/
theorem mem_of_hasId {db : Store} {id : String} (h : hasId db id = true) :
    ∃ p ∈ db, p.1 = id := by
  obtain ⟨p, hp, hbeq⟩ := List.any_eq_true.mp h
  exact ⟨p, hp, by simpa using hbeq⟩

/-- Writing at a non-empty id preserves non-emptiness of every key. -/
theorem keys_setId {db : Store} {k : String} {v : Employee}
    (h : ∀ p ∈ db, p.1 ≠ "") (hk : k ≠ "") : ∀ p ∈ setId db k v, p.1 ≠ "" := by
  induction db with
  | nil => intro p hp; simp [setId] at hp; simp [hp, hk]
  | cons q rest ih =>
      intro p hp
      rw [setId] at hp
      by_cases hq : q.1 = k
      · rw [if_pos (by simp [hq])] at hp
        cases hp with
        | head => exact hk
        | tail _ hmem => exact h p (List.mem_cons_of_mem q hmem)
      · rw [if_neg (by simp [hq])] at hp
        cases hp with
        | head => exact h q (List.mem_cons_self q rest)
        | tail _ hmem => exact ih (fun x hx => h x (List.mem_cons_of_mem q hx)) p hmem

/-- Deletion preserves non-emptiness of every key. -/
theorem keys_deleteId {db : Store} {id : String}
    (h : ∀ p ∈ db, p.1 ≠ "") : ∀ p ∈ deleteId db id, p.1 ≠ "" := by
  intro p hp
  exact h p (List.mem_of_mem_filter hp)

/-- Overwriting with a non-CEO record cannot increase the CEO count. -/
theorem ceoCount_setId_of_not_ceo {db : Store} {k : String} {v : Employee}
    (h : isCeoEmp v = false) : ceoCount (setId db k v) ≤ ceoCount db := by
  induction db with
  | nil => simp [setId, ceoCount, List.filter_cons, h]
  | cons q rest ih =>
      rw [setId]
      by_cases hq : q.1 = k
      · rw [if_pos (by simp [hq])]
        cases hcq : isCeoEmp q.2 <;> simp [ceoCount, List.filter_cons, h, hcq]
      · rw [if_neg (by simp [hq])]
        have ih' := ih
        simp only [ceoCount, List.filter_cons] at ih' ⊢
        cases hcq : isCeoEmp q.2 <;> simp [hcq] <;> omega

/-- Writing any record into a CEO-free store yields at most one CEO. -/
theorem ceoCount_setId_of_count_zero {db : Store} {k : String} {v : Employee}
    (h : ceoCount db = 0) : ceoCount (setId db k v) ≤ 1 := by
  induction db with
  | nil => cases hcv : isCeoEmp v <;> simp [setId, ceoCount, List.filter_cons, hcv]
  | cons q rest ih =>
      have hq2 : isCeoEmp q.2 = false := by
        cases hx : isCeoEmp q.2
        · rfl
        · simp [ceoCount, List.filter_cons, hx] at h
      have hrest : ceoCount rest = 0 := by
        simpa [ceoCount, List.filter_cons, hq2] using h
      rw [setId]
      by_cases hqk : q.1 = k
      · rw [if_pos (by simp [hqk])]
        have hrest' := hrest
        simp only [ceoCount, List.filter_cons] at hrest' ⊢
        by_cases hcv : isCeoEmp v = true
        · rw [if_pos hcv, List.length_cons]
          omega
        · rw [if_neg hcv]
          omega
      · rw [if_neg (by simp [hqk])]
        have := ih hrest
        simp only [ceoCount, List.filter_cons, hq2] at this ⊢
        exact this

/-- Deletion cannot increase the CEO count. -/
theorem ceoCount_deleteId (db : Store) (id : String) :
    ceoCount (deleteId db id) ≤ ceoCount db := by
  have hs : (deleteId db id).Sublist db := List.filter_sublist db
  have hlen := (List.Sublist.filter (fun p => isCeoEmp p.2) hs).length_le
  simpa [ceoCount] using hlen

/-- When every key is non-empty and some stored record holds the CEO role, the
`ceoExists` lookup of the role callback is truthy. -/
theorem ceoKeyTruthy_of_exists {db : Store}
    (hkeys : ∀ p ∈ db, p.1 ≠ "")
    (h : ∃ p ∈ db, strLower p.2.role = "ceo") : ceoKeyTruthy db = true := by
  obtain ⟨p, hp, hrole⟩ := h
  have hsome : (db.find? (fun q => strLower q.2.role == "ceo")).isSome := by
    rw [List.find?_isSome]
    exact ⟨p, hp, by simp [hrole]⟩
  obtain ⟨q, hq⟩ := Option.isSome_iff_exists.mp hsome
  have hqmem : q ∈ db := List.mem_of_find?_eq_some hq
  have hqkey : q.1 ≠ "" := hkeys q hqmem
  simp [ceoKeyTruthy, findCeoKey, hq, hqkey]

/-- When the `ceoExists` lookup is falsy and every key is non-empty, no stored
record holds the CEO role. -/
theorem ceoCount_zero_of_not_truthy {db : Store}
    (hkeys : ∀ p ∈ db, p.1 ≠ "")
    (h : ceoKeyTruthy db = false) : ceoCount db = 0 := by
  have hnone : db.find? (fun q => strLower q.2.role == "ceo") = none := by
    cases hf : db.find? (fun q => strLower q.2.role == "ceo") with
    | none => rfl
    | some q =>
        have hqmem : q ∈ db := List.mem_of_find?_eq_some hf
        have hqkey : q.1 ≠ "" := hkeys q hqmem
        simp [ceoKeyTruthy, findCeoKey, hf, hqkey] at h
  rw [ceoCount, List.length_eq_zero]
  rw [List.filter_eq_nil_iff]
  intro p hp
  have := List.find?_eq_none.mp hnone p hp
  simpa [isCeoEmp] using this

/-- A CEO-free store has a falsy `ceoExists` lookup. -/
theorem not_truthy_of_ceoCount_zero {db : Store}
    (h : ceoCount db = 0) : ceoKeyTruthy db = false := by
  have hnil : db.filter (fun p => isCeoEmp p.2) = [] := by
    rw [← List.length_eq_zero]
    exact h
  have hnone : db.find? (fun q => strLower q.2.role == "ceo") = none := by
    rw [List.find?_eq_none]
    intro p hp hpred
    have : p ∈ db.filter (fun p => isCeoEmp p.2) := by
      rw [List.mem_filter]
      exact ⟨hp, by simpa [isCeoEmp] using hpred⟩
    rw [hnil] at this
    cases this
  simp [ceoKeyTruthy, findCeoKey, hnone]

/-- Upper-casing then lower-casing a character agrees with lower-casing it. -/
theorem char_toLower_toUpper (c : Char) : c.toUpper.toLower = c.toLower := by
  rw [Char.toUpper]
  by_cases h : c.toNat ≥ 97 ∧ c.toNat ≤ 122
  · rw [if_pos h]
    have hval : (Char.ofNat (c.toNat - 32)).toNat = c.toNat - 32 := by
      rw [Char.ofNat, dif_pos (Or.inl (by omega))]
      rfl
    rw [Char.toLower, Char.toLower, hval]
    rw [if_pos (by omega), if_neg (by omega)]
    have : c.toNat - 32 + 32 = c.toNat := by omega
    rw [this, Char.ofNat_toNat]
  · rw [if_neg h]

/-- Upper-casing then lower-casing a string agrees with lower-casing it. -/
theorem strLower_strUpper (s : String) : strLower (strUpper s) = strLower s := by
  rw [strLower, strUpper, strLower]
  have : (s.data.map Char.toUpper).map Char.toLower = s.data.map Char.toLower := by
    rw [List.map_map]
    exact List.map_congr_left (fun c _ => char_toLower_toUpper c)
  rw [this]

/-- Computed lower-casing of the allowed role name `"CEO"`. -/
theorem lower_ceo_eq : strLower "CEO" = "ceo" := by decide

/-- Computed lower-casing of the allowed role name `"VP"`. -/
theorem lower_vp_eq : strLower "VP" = "vp" := by decide

/-- Computed lower-casing of the allowed role name `"MANAGER"`. -/
theorem lower_manager_eq : strLower "MANAGER" = "manager" := by decide

/-- Computed lower-casing of the allowed role name `"LACKEY"`. -/
theorem lower_lackey_eq : strLower "LACKEY" = "lackey" := by decide

/-- Computed lower-casing of the HTTP method name `"POST"`. -/
theorem lower_post_eq : strLower "POST" = "post" := by decide

/-- Computed lower-casing of the HTTP method name `"PUT"`. -/
theorem lower_put_eq : strLower "PUT" = "put" := by decide

/-- `msgTruthy` of an absent result. -/
theorem msgTruthy_none : msgTruthy none = false := rfl

/-- The type tag `"string"` is truthy. -/
theorem beq_string_empty : (("string" : String) == "") = false := by decide

/-- The missing-property message is a non-empty string for every field name. -/
theorem missing_message_truthy (f : String) :
    msgTruthy (some ("Required property [" ++ f ++ "] is missing from the request payload.")) = true := by
  have hne : ("Required property [" ++ f ++ "] is missing from the request payload.") ≠ "" := by
    intro hc
    have hlen := congrArg String.length hc
    simp only [String.length_append] at hlen
    have h1 : 0 < ("Required property [" : String).length := by decide
    have h2 : ("" : String).length = 0 := by decide
    omega
  simp [msgTruthy, hne]

/-- The CEO-uniqueness message is truthy. -/
theorem ceoUniquenessMessage_truthy : msgTruthy (some ceoUniquenessMessage) = true := by decide

/-- The only message `validateFieldType` can produce. -/
theorem validateFieldType_some {o : Record} {f dt e : String}
    (h : validateFieldType o f dt = some e) :
    e = "The value of property [" ++ f ++ "] is not the correct data type. It should be [" ++ dt ++ "]." := by
  rw [validateFieldType] at h
  split at h
  · cases h
  · injection h with h
    exact h.symm

/-- An `if c then none else some M` result that is `some e` forces `e = M`. -/
theorem ite_none_some {c : Prop} [Decidable c] {M e : String}
    (h : (if c then none else some M) = some e) : e = M := by
  by_cases hc : c
  · rw [if_pos hc] at h
    cases h
  · rw [if_neg hc] at h
    injection h with h
    exact h.symm

/-- The only message `validateFieldValueEnum` can produce. -/
theorem validateFieldValueEnum_some {o : Record} {f : String} {av : List JsValue} {cs : Bool} {e : String}
    (h : validateFieldValueEnum o f av cs = some e) :
    e = "The value of property [" ++ f ++ "] is invalid. It should be one of " ++ joinJsValues av ++ "." := by
  simp only [validateFieldValueEnum] at h
  exact ite_none_some h

/-- A field present with a string value passes a rule that requires type
string and has no enumeration and no custom callback. -/
theorem validateField_present_string {body : Record} {f : String} {opts : Options} {s : String}
    (hget : getProp body f = JsValue.str s)
    (hdt : opts.dataType = some "string")
    (hav : opts.allowedValues = none)
    (hcu : opts.custom = none) :
    validateField body f opts = none := by
  have hex : validateFieldExistence body f = none := by
    simp [validateFieldExistence, hasOwn_of_getProp_str hget]
  have h1 : runDataTypeCheck body f opts = none := by
    rw [runDataTypeCheck, hdt]
    simp [beq_string_empty, validateFieldType, hget, typeofJs]
  have h2 : runEnumCheck body f opts = none := by
    simp [runEnumCheck, hav]
  have h3 : runCustomCheck body f opts = none := by
    simp [runCustomCheck, hcu]
  rw [validateField]
  simp [hex, h1, h2, h3, msgTruthy_none]

/-- Inversion of a successful validation of the `role` rule: the value is a
string whose lower-casing is one of the allowed role names, and when it is
`"ceo"` the store's `ceoExists` lookup was falsy at validation time. -/
theorem roleField_valid_inversion {db : Store} {m : String} {body : Record}
    (h : validateField body "role" { roleOptions db with reqMethod := some m } = none) :
    ∃ s, getProp body "role" = JsValue.str s ∧
      strLower s ∈ ["ceo", "vp", "manager", "lackey"] ∧
      (strLower s = "ceo" → ceoKeyTruthy db = false) := by
  cases hown : hasOwn body "role" with
  | false =>
      exfalso
      have hex : validateFieldExistence body "role" =
          some ("Required property [" ++ "role" ++ "] is missing from the request payload.") := by
        simp [validateFieldExistence, hown]
      have hreq : resolveRequired { roleOptions db with reqMethod := some m } = true := by
        rw [resolveRequired]
        simp [roleOptions]
      rw [validateField] at h
      simp only [hex, hreq, missing_message_truthy, Bool.and_self, if_true, true_and] at h
      cases h
  | true =>
      have hex : validateFieldExistence body "role" = none := by
        simp [validateFieldExistence, hown]
      rw [validateField] at h
      simp only [hex, msgTruthy_none, Bool.and_false, Bool.false_eq_true, if_false] at h
      by_cases hty : typeofJs (getProp body "role") = "string"
      case neg =>
          exfalso
          have hdt : runDataTypeCheck body "role" { roleOptions db with reqMethod := some m } =
              some "The value of property [role] is not the correct data type. It should be [string]." := by
            rw [runDataTypeCheck]
            simp only [roleOptions]
            simp [beq_string_empty, validateFieldType, hty]
          have htr : msgTruthy (some "The value of property [role] is not the correct data type. It should be [string].") = true := by decide
          simp only [hdt, htr, if_true] at h
          cases h
      case pos =>
          obtain ⟨s, hs⟩ := typeofJs_eq_string hty
          have hdt : runDataTypeCheck body "role" { roleOptions db with reqMethod := some m } = none := by
            rw [runDataTypeCheck]
            simp only [roleOptions]
            simp [beq_string_empty, validateFieldType, hty]
          simp only [hdt, msgTruthy_none, Bool.false_eq_true, if_false] at h
          have hen : runEnumCheck body "role" { roleOptions db with reqMethod := some m } = none := by
            cases hx : runEnumCheck body "role" { roleOptions db with reqMethod := some m } with
            | none => rfl
            | some e =>
                exfalso
                have hx2 : validateFieldValueEnum body "role" roleAllowedValues false = some e := by
                  rw [runEnumCheck] at hx
                  simpa [roleOptions] using hx
                have he := validateFieldValueEnum_some hx2
                have htr : msgTruthy (some e) = true := by
                  rw [he]
                  decide
                simp only [hx, htr, if_true] at h
                cases h
          have hmem : strLower s ∈ ["ceo", "vp", "manager", "lackey"] := by
            rw [runEnumCheck] at hen
            simp only [roleOptions] at hen
            rw [validateFieldValueEnum] at hen
            simp only [roleAllowedValues, List.map_cons, List.map_nil, lowerIfString,
              lower_ceo_eq, lower_vp_eq, lower_manager_eq, lower_lackey_eq, hs] at hen
            by_cases hmem : strLower s ∈ ["ceo", "vp", "manager", "lackey"]
            · exact hmem
            · exfalso
              simp at hmem
              simp [List.contains_cons, hmem] at hen
          refine ⟨s, hs, hmem, ?_⟩
          intro hlow
          simp only [hen, msgTruthy_none, Bool.false_eq_true, if_false] at h
          cases htr : ceoKeyTruthy db with
          | false => rfl
          | true =>
              exfalso
              have hcu : runCustomCheck body "role" { roleOptions db with reqMethod := some m } =
                  some ceoUniquenessMessage := by
                rw [runCustomCheck]
                simp only [roleOptions]
                simp [roleCustom, hs, jsToLowerString, hlow, htr]
              simp only [hcu, ceoUniquenessMessage_truthy, if_true] at h
              cases h

/-- When the candidate role lower-cases to `"ceo"` and the store's `ceoExists`
lookup is truthy, the `role` rule fails with the uniqueness message. -/
theorem roleField_conflict {db : Store} {m : String} {body : Record} {s : String}
    (hrole : getProp body "role" = JsValue.str s)
    (hlow : strLower s = "ceo")
    (htru : ceoKeyTruthy db = true) :
    validateField body "role" { roleOptions db with reqMethod := some m } = some ceoUniquenessMessage := by
  have hex : validateFieldExistence body "role" = none := by
    simp [validateFieldExistence, hasOwn_of_getProp_str hrole]
  have h1 : runDataTypeCheck body "role" { roleOptions db with reqMethod := some m } = none := by
    rw [runDataTypeCheck]
    simp only [roleOptions]
    simp [beq_string_empty, validateFieldType, hrole, typeofJs]
  have h2 : runEnumCheck body "role" { roleOptions db with reqMethod := some m } = none := by
    rw [runEnumCheck]
    simp only [roleOptions]
    rw [validateFieldValueEnum]
    simp [roleAllowedValues, lowerIfString, hrole, hlow, List.contains_cons,
      lower_ceo_eq, lower_vp_eq, lower_manager_eq, lower_lackey_eq]
  have h3 : runCustomCheck body "role" { roleOptions db with reqMethod := some m } =
      some ceoUniquenessMessage := by
    rw [runCustomCheck]
    simp only [roleOptions]
    simp [roleCustom, hrole, jsToLowerString, hlow, htru]
  rw [validateField]
  simp [hex, h1, h2, h3, msgTruthy_none, ceoUniquenessMessage_truthy]

/-- When the candidate role lower-cases to `"ceo"` and the store's `ceoExists`
lookup is falsy, the `role` rule passes. -/
theorem roleField_first_ceo {db : Store} {m : String} {body : Record} {s : String}
    (hrole : getProp body "role" = JsValue.str s)
    (hlow : strLower s = "ceo")
    (htru : ceoKeyTruthy db = false) :
    validateField body "role" { roleOptions db with reqMethod := some m } = none := by
  have hex : validateFieldExistence body "role" = none := by
    simp [validateFieldExistence, hasOwn_of_getProp_str hrole]
  have h1 : runDataTypeCheck body "role" { roleOptions db with reqMethod := some m } = none := by
    rw [runDataTypeCheck]
    simp only [roleOptions]
    simp [beq_string_empty, validateFieldType, hrole, typeofJs]
  have h2 : runEnumCheck body "role" { roleOptions db with reqMethod := some m } = none := by
    rw [runEnumCheck]
    simp only [roleOptions]
    rw [validateFieldValueEnum]
    simp [roleAllowedValues, lowerIfString, hrole, hlow, List.contains_cons,
      lower_ceo_eq, lower_vp_eq, lower_manager_eq, lower_lackey_eq]
  have h3 : runCustomCheck body "role" { roleOptions db with reqMethod := some m } = none := by
    rw [runCustomCheck]
    simp only [roleOptions]
    simp [roleCustom, hrole, jsToLowerString, hlow, htru]
  rw [validateField]
  simp [hex, h1, h2, h3, msgTruthy_none]

/-- The employee schema evaluated as: the first three rules, then the `role`
rule, then the `quote` and `joke` rules, with the first error short-circuiting. -/
theorem validateEmployee_split (db : Store) (now : CalDate) (body : Record) (m : String) :
    validateEmployee db now body m =
      match validateRecord body ((employeeFieldValidations db now).take 3) m with
      | some e => some e
      | none =>
          match validateField body "role" { roleOptions db with reqMethod := some m } with
          | some e => some e
          | none => validateRecord body ((employeeFieldValidations db now).drop 4) m := by
  show validateRecord body
      ((employeeFieldValidations db now).take 3 ++
        ({ fieldName := "role", options := roleOptions db } :: (employeeFieldValidations db now).drop 4)) m = _
  rw [validateRecord_append]
  cases hx : validateRecord body ((employeeFieldValidations db now).take 3) m with
  | some e =>
      simp only [hx]
  | none =>
      simp only [hx]
      rfl

end SharedLemmas

section Claims

/-- C2: for every record, schema, and verb, record validation evaluates the
schema's field rules in order and returns the error of the first failing rule,
stopping there — the result and the custom-invocation trace are unchanged when
everything after the first failing rule is replaced — and when no rule fails
the result is no error. -/
theorem claim_C2_first_error_wins (body : Record) (m : String) :
    (∀ (pre : List FieldValidation) (r : FieldValidation) (post : List FieldValidation) (e : String),
        (∀ fv ∈ pre, validateField body fv.fieldName { fv.options with reqMethod := some m } = none) →
        validateField body r.fieldName { r.options with reqMethod := some m } = some e →
        validateRecord body (pre ++ r :: post) m = some e ∧
          validateRecordT body (pre ++ r :: post) m = validateRecordT body (pre ++ [r]) m) ∧
    (∀ schema : List FieldValidation,
        (∀ fv ∈ schema, validateField body fv.fieldName { fv.options with reqMethod := some m } = none) →
        validateRecord body schema m = none) := by
  constructor
  · intro pre
    induction pre with
    | nil =>
        intro r post e hpre hr
        constructor
        · rw [List.nil_append, validateRecord]
          simp only [hr]
        · rw [List.nil_append, List.nil_append, validateRecordT, validateRecordT]
          simp only [validateFieldT, hr]
    | cons a as ih =>
        intro r post e hpre hr
        have ha : validateField body a.fieldName { a.options with reqMethod := some m } = none :=
          hpre a (List.mem_cons_self a as)
        have hrest := ih r post e (fun fv hfv => hpre fv (List.mem_cons_of_mem a hfv)) hr
        constructor
        · rw [List.cons_append, validateRecord]
          simp only [ha]
          exact hrest.1
        · rw [List.cons_append, List.cons_append, validateRecordT, validateRecordT]
          simp only [validateFieldT, ha, hrest.2]
  · intro schema
    induction schema with
    | nil => intro _; rfl
    | cons a as ih =>
        intro hall
        rw [validateRecord]
        simp only [hall a (List.mem_cons_self a as)]
        exact ih (fun fv hfv => hall fv (List.mem_cons_of_mem a hfv))

/-- Witness for C2 at a concrete record and schema: the rule for the missing
field `"b"` fails first, the rule after it (with an always-failing custom
callback) does not change the result or the trace, and an all-passing schema
validates to no error. -/
theorem claim_C2_first_error_wins_witness :
    validateRecord [("x", JsValue.str "v")]
        [ { fieldName := "b", options := {} },
          { fieldName := "x", options := { custom := some (fun _ _ => some "boom") } } ] "POST" =
      some "Required property [b] is missing from the request payload." ∧
    validateRecordT [("x", JsValue.str "v")]
        [ { fieldName := "b", options := {} },
          { fieldName := "x", options := { custom := some (fun _ _ => some "boom") } } ] "POST" =
      validateRecordT [("x", JsValue.str "v")] [ { fieldName := "b", options := {} } ] "POST" ∧
    validateRecord [("x", JsValue.str "v")] [ { fieldName := "x", options := { dataType := some "string" } } ] "POST" = none := by
  have h := claim_C2_first_error_wins [("x", JsValue.str "v")] "POST"
  refine ⟨?_, ?_, ?_⟩
  · exact (h.1 [] { fieldName := "b", options := {} }
      [ { fieldName := "x", options := { custom := some (fun _ _ => some "boom") } } ]
      "Required property [b] is missing from the request payload."
      (by intro fv hfv; cases hfv) (by decide)).1
  · exact (h.1 [] { fieldName := "b", options := {} }
      [ { fieldName := "x", options := { custom := some (fun _ _ => some "boom") } } ]
      "Required property [b] is missing from the request payload."
      (by intro fv hfv; cases hfv) (by decide)).2
  · refine h.2 _ ?_
    intro fv hfv
    rw [List.mem_singleton] at hfv
    subst hfv
    decide

/-- C3: for every rule and record where the rule's field is absent, a required
field fails with exactly the missing-property message, and a non-required
field yields no error with no type, enumeration, or custom check running (the
result is `none` whatever `dataType`, `allowedValues` and `custom` are, and
the custom callback is never invoked). -/
theorem claim_C3_absent_field (body : Record) (fieldName : String) (opts : Options)
    (habs : hasOwn body fieldName = false) :
    (resolveRequired opts = true →
        validateField body fieldName opts =
          some ("Required property [" ++ fieldName ++ "] is missing from the request payload.")) ∧
    (resolveRequired opts = false →
        validateField body fieldName opts = none ∧ (validateFieldT body fieldName opts).2 = []) := by
  have hex : validateFieldExistence body fieldName =
      some ("Required property [" ++ fieldName ++ "] is missing from the request payload.") := by
    simp [validateFieldExistence, habs]
  constructor
  · intro hreq
    rw [validateField]
    simp [hex, hreq, missing_message_truthy]
  · intro hreq
    refine ⟨?_, ?_⟩
    · rw [validateField]
      simp [hex, hreq, missing_message_truthy]
    · rw [validateFieldT]
      simp [hex, missing_message_truthy]

/-- Witness for C3 at concrete inputs: an absent required field produces the
missing message, and an absent optional field passes even though its rule
carries an always-failing custom callback, which is not invoked. -/
theorem claim_C3_absent_field_witness :
    validateField [("x", JsValue.str "v")] "b" { dataType := some "string" } =
      some "Required property [b] is missing from the request payload." ∧
    validateField [("x", JsValue.str "v")] "b"
        { dataType := some "number", custom := some (fun _ _ => some "boom"),
          reqMethod := some "POST", required := some { post := some false, put := some true } } = none ∧
    (validateFieldT [("x", JsValue.str "v")] "b"
        { dataType := some "number", custom := some (fun _ _ => some "boom"),
          reqMethod := some "POST", required := some { post := some false, put := some true } }).2 = [] := by
  refine ⟨?_, ?_, ?_⟩
  · exact (claim_C3_absent_field [("x", JsValue.str "v")] "b" { dataType := some "string" }
      (by decide)).1 (by decide)
  · exact ((claim_C3_absent_field [("x", JsValue.str "v")] "b"
      { dataType := some "number", custom := some (fun _ _ => some "boom"),
        reqMethod := some "POST", required := some { post := some false, put := some true } }
      (by decide)).2 (by decide)).1
  · exact ((claim_C3_absent_field [("x", JsValue.str "v")] "b"
      { dataType := some "number", custom := some (fun _ _ => some "boom"),
        reqMethod := some "POST", required := some { post := some false, put := some true } }
      (by decide)).2 (by decide)).2

/-- C4: a rule configured `required: {post: false, put: true}` (the `quote` and
`joke` rules' configuration) on a field absent from the payload passes on a
POST request and fails with the missing-property message on a PUT request. -/
theorem claim_C4_required_differs_by_verb (fieldName : String) (opts : Options) (body : Record)
    (hreq : opts.required = some { post := some false, put := some true })
    (habs : hasOwn body fieldName = false) :
    validateField body fieldName { opts with reqMethod := some "POST" } = none ∧
    validateField body fieldName { opts with reqMethod := some "PUT" } =
      some ("Required property [" ++ fieldName ++ "] is missing from the request payload.") := by
  have hex : validateFieldExistence body fieldName =
      some ("Required property [" ++ fieldName ++ "] is missing from the request payload.") := by
    simp [validateFieldExistence, habs]
  have hpost : resolveRequired { opts with reqMethod := some "POST" } = false := by
    rw [resolveRequired]
    simp [hreq, lower_post_eq]
  have hput : resolveRequired { opts with reqMethod := some "PUT" } = true := by
    rw [resolveRequired]
    simp [hreq, lower_put_eq]
  refine ⟨?_, ?_⟩
  · rw [validateField]
    simp [hex, hpost, missing_message_truthy]
  · rw [validateField]
    simp [hex, hput, missing_message_truthy]

/-- Witness for C4: the `quote` rule's exact configuration on a payload with
no `quote` key passes for POST and fails for PUT. -/
theorem claim_C4_required_differs_by_verb_witness :
    validateField [("x", JsValue.str "v")] "quote"
        { dataType := some "string", required := some { post := some false, put := some true },
          reqMethod := some "POST" } = none ∧
    validateField [("x", JsValue.str "v")] "quote"
        { dataType := some "string", required := some { post := some false, put := some true },
          reqMethod := some "PUT" } =
      some "Required property [quote] is missing from the request payload." := by
  exact claim_C4_required_differs_by_verb "quote"
    { dataType := some "string", required := some { post := some false, put := some true } }
    [("x", JsValue.str "v")] rfl (by decide)

/-- C5: with the role rule's enumeration and case-insensitive matching, a
string value passes exactly when its lower-casing is one of `ceo`, `vp`,
`manager`, `lackey` — so every letter-case variant of an allowed value passes
— and every other string fails with the message listing the allowed values in
their original case and order. -/
theorem claim_C5_role_enum_case_insensitive (body : Record) (s : String)
    (hrole : getProp body "role" = JsValue.str s) :
    (validateFieldValueEnum body "role" roleAllowedValues false = none ↔
        strLower s ∈ ["ceo", "vp", "manager", "lackey"]) ∧
    (strLower s ∉ ["ceo", "vp", "manager", "lackey"] →
        validateFieldValueEnum body "role" roleAllowedValues false =
          some "The value of property [role] is invalid. It should be one of CEO, VP, MANAGER, LACKEY.") := by
  have hmap : roleAllowedValues.map lowerIfString =
      [JsValue.str "ceo", JsValue.str "vp", JsValue.str "manager", JsValue.str "lackey"] := by decide
  have hmsg : "The value of property [role] is invalid. It should be one of " ++
      joinJsValues roleAllowedValues ++ "." =
      "The value of property [role] is invalid. It should be one of CEO, VP, MANAGER, LACKEY." := by decide
  rw [validateFieldValueEnum]
  simp only [Bool.false_eq_true, if_false, hmap, hrole, lowerIfString, hmsg]
  simp only [List.contains_cons, List.contains_nil, beq_iff_eq, JsValue.str.injEq, List.mem_cons,
    List.not_mem_nil, or_false, Bool.or_eq_true]
  by_cases h1 : strLower s = "ceo"
  · simp [h1]
  · by_cases h2 : strLower s = "vp"
    · simp [h2]
    · by_cases h3 : strLower s = "manager"
      · simp [h3]
      · by_cases h4 : strLower s = "lackey"
        · simp [h4]
        · simp [h1, h2, h3, h4, hmsg]

/-- Witness for C5: `"CeO"` (a letter-case variant of `"CEO"`) passes the
enumeration, and `"LACKEYX"` fails with the message listing the original-case
allowed values. -/
theorem claim_C5_role_enum_case_insensitive_witness :
    validateFieldValueEnum [("role", JsValue.str "CeO")] "role" roleAllowedValues false = none ∧
    validateFieldValueEnum [("role", JsValue.str "LACKEYX")] "role" roleAllowedValues false =
      some "The value of property [role] is invalid. It should be one of CEO, VP, MANAGER, LACKEY." := by
  refine ⟨?_, ?_⟩
  · exact (claim_C5_role_enum_case_insensitive [("role", JsValue.str "CeO")] "CeO" (by decide)).1.mpr
      (by decide)
  · exact (claim_C5_role_enum_case_insensitive [("role", JsValue.str "LACKEYX")] "LACKEYX"
      (by decide)).2 (by decide)

/-- C8: a PUT whose id is not in the store answers 404 with the not-found
message and leaves the store unchanged, for every payload (so a payload that
would fail validation still yields 404, never 400), and no custom callback is
invoked while handling the request. -/
theorem claim_C8_put_missing_id (db : Store) (now : CalDate) (id : String) (body : Record)
    (habs : hasId db id = false) :
    putEmployee db now id body =
      ({ status := 404,
         result := some ("A resource with id [" ++ id ++ "] does not exist, and therefore cannot be updated.") }, db) ∧
    putEmployeeT db now id body =
      (({ status := 404,
          result := some ("A resource with id [" ++ id ++ "] does not exist, and therefore cannot be updated.") }, db), []) := by
  rw [putEmployee, putEmployeeT]
  simp [habs]

/-- Witness for C8: a PUT to the id `"missing"` of a one-record store with a
payload that would fail validation (its role is not an allowed value) still
answers 404 with the store unchanged and an empty custom-invocation trace. -/
theorem claim_C8_put_missing_id_witness :
    putEmployee
        [("id1", { firstName := JsValue.str "asf", lastName := JsValue.str "asdf",
                   hireDate := JsValue.str "2020-02-29", role := "CEO" })]
        { year := 2026, month := 10, day := 11 } "missing"
        [("firstName", JsValue.num 1), ("role", JsValue.str "NOBODY")] =
      ({ status := 404,
         result := some "A resource with id [missing] does not exist, and therefore cannot be updated." },
       [("id1", { firstName := JsValue.str "asf", lastName := JsValue.str "asdf",
                  hireDate := JsValue.str "2020-02-29", role := "CEO" })]) ∧
    putEmployeeT
        [("id1", { firstName := JsValue.str "asf", lastName := JsValue.str "asdf",
                   hireDate := JsValue.str "2020-02-29", role := "CEO" })]
        { year := 2026, month := 10, day := 11 } "missing"
        [("firstName", JsValue.num 1), ("role", JsValue.str "NOBODY")] =
      (({ status := 404,
          result := some "A resource with id [missing] does not exist, and therefore cannot be updated." },
        [("id1", { firstName := JsValue.str "asf", lastName := JsValue.str "asdf",
                   hireDate := JsValue.str "2020-02-29", role := "CEO" })]), []) := by
  exact claim_C8_put_missing_id _ _ "missing" _ (by decide)

/-- C9: deleting the same id twice answers 204 both times, the id is absent
after the first delete, and the second delete leaves the store unchanged. -/
theorem claim_C9_delete_idempotent (db : Store) (id : String) :
    (deleteEmployee db id).1 = { status := 204 } ∧
    hasId (deleteEmployee db id).2 id = false ∧
    (deleteEmployee (deleteEmployee db id).2 id).1 = { status := 204 } ∧
    (deleteEmployee (deleteEmployee db id).2 id).2 = (deleteEmployee db id).2 := by
  have habs : hasId (deleteEmployee db id).2 id = false := by
    rw [deleteEmployee]
    by_cases h : hasId db id = true
    · simp only [h, if_true]
      exact hasId_deleteId db id
    · have h' : hasId db id = false := by
        cases hx : hasId db id
        · rfl
        · exact absurd hx h
      simp [h']
  refine ⟨rfl, habs, rfl, ?_⟩
  rw [deleteEmployee, habs]
  simp

/-- C10: a PUT to an existing id whose payload passes the first four rules and
carries `quote` and `joke` as the empty string validates successfully (the
keys are present with type string, satisfying required-on-put) and answers
204, yet the stored replacement has no `quote` and no `joke` key, because
storage copies those two fields only when truthy. -/
theorem claim_C10_put_empty_quote_dropped (db : Store) (now : CalDate) (id : String) (body : Record)
    (hid : hasId db id = true)
    (hpre : validateRecord body ((employeeFieldValidations db now).take 4) "PUT" = none)
    (hq : getProp body "quote" = JsValue.str "")
    (hj : getProp body "joke" = JsValue.str "") :
    putEmployee db now id body = ({ status := 204 }, setId db id (createDatabaseEntryFromReqBody body)) ∧
    (createDatabaseEntryFromReqBody body).quote = none ∧
    (createDatabaseEntryFromReqBody body).joke = none := by
  have hquote : validateField body "quote"
      { dataType := some "string", required := some { post := some false, put := some true },
        reqMethod := some "PUT" } = none :=
    validateField_present_string hq rfl rfl rfl
  have hjoke : validateField body "joke"
      { dataType := some "string", required := some { post := some false, put := some true },
        reqMethod := some "PUT" } = none :=
    validateField_present_string hj rfl rfl rfl
  have hval : validateEmployee db now body "PUT" = none := by
    rw [validateEmployee]
    rw [show employeeFieldValidations db now =
          (employeeFieldValidations db now).take 4 ++ (employeeFieldValidations db now).drop 4
        from (List.take_append_drop 4 _).symm]
    rw [validateRecord_append]
    simp only [hpre]
    show validateRecord body
        [ { fieldName := "quote", options := { dataType := some "string", required := some { post := some false, put := some true } } },
          { fieldName := "joke", options := { dataType := some "string", required := some { post := some false, put := some true } } } ] "PUT" = none
    rw [validateRecord]
    simp only [hquote]
    rw [validateRecord]
    simp only [hjoke]
    rfl
  refine ⟨?_, ?_, ?_⟩
  · rw [putEmployee]
    simp [hid, hval]
  · rw [createDatabaseEntryFromReqBody]
    simp [hq, truthy]
  · rw [createDatabaseEntryFromReqBody]
    simp [hj, truthy]

/-- Witness for C10: updating a stored record with an otherwise-valid payload
whose `quote` and `joke` are `""` answers 204 and stores a record with no
`quote` and no `joke` field. -/
theorem claim_C10_put_empty_quote_dropped_witness :
    putEmployee
        [("id1", { firstName := JsValue.str "asf", lastName := JsValue.str "asdf",
                   hireDate := JsValue.str "2020-02-29", role := "LACKEY" })]
        { year := 2026, month := 10, day := 11 } "id1"
        [("firstName", JsValue.str "A"), ("lastName", JsValue.str "B"),
         ("hireDate", JsValue.str "2020-03-01"), ("role", JsValue.str "VP"),
         ("quote", JsValue.str ""), ("joke", JsValue.str "")] =
      ({ status := 204 },
       [("id1", { firstName := JsValue.str "A", lastName := JsValue.str "B",
                  hireDate := JsValue.str "2020-03-01", role := "VP",
                  quote := none, joke := none })]) ∧
    (createDatabaseEntryFromReqBody
        [("firstName", JsValue.str "A"), ("lastName", JsValue.str "B"),
         ("hireDate", JsValue.str "2020-03-01"), ("role", JsValue.str "VP"),
         ("quote", JsValue.str ""), ("joke", JsValue.str "")]).quote = none ∧
    (createDatabaseEntryFromReqBody
        [("firstName", JsValue.str "A"), ("lastName", JsValue.str "B"),
         ("hireDate", JsValue.str "2020-03-01"), ("role", JsValue.str "VP"),
         ("quote", JsValue.str ""), ("joke", JsValue.str "")]).joke = none := by
  have h := claim_C10_put_empty_quote_dropped
    [("id1", { firstName := JsValue.str "asf", lastName := JsValue.str "asdf",
               hireDate := JsValue.str "2020-02-29", role := "LACKEY" })]
    { year := 2026, month := 10, day := 11 } "id1"
    [("firstName", JsValue.str "A"), ("lastName", JsValue.str "B"),
     ("hireDate", JsValue.str "2020-03-01"), ("role", JsValue.str "VP"),
     ("quote", JsValue.str ""), ("joke", JsValue.str "")]
    (by decide) (by decide) (by decide) (by decide)
  exact ⟨h.1, h.2.1, h.2.2⟩

/-- C1 counterexample: the store holds one CEO at id `"id1"`; a PUT to
`"id1"` with an otherwise-valid payload whose role is `"CEO"` is answered 400
with the uniqueness message and leaves the store unchanged — the uniqueness
check counts the record being replaced against itself, so validation does not
succeed and no 204 is sent, contrary to the claim. -/
theorem claim_C1_counterexample :
    putEmployee
        [("id1", { firstName := JsValue.str "asf", lastName := JsValue.str "asdf",
                   hireDate := JsValue.str "2020-02-29", role := "CEO",
                   quote := some (JsValue.str "q"), joke := some (JsValue.str "j") })]
        { year := 2026, month := 10, day := 11 } "id1"
        [("firstName", JsValue.str "A"), ("lastName", JsValue.str "B"),
         ("hireDate", JsValue.str "2020-03-01"), ("role", JsValue.str "CEO"),
         ("quote", JsValue.str "qq"), ("joke", JsValue.str "jj")] =
      ({ status := 400, result := some ceoUniquenessMessage },
       [("id1", { firstName := JsValue.str "asf", lastName := JsValue.str "asdf",
                  hireDate := JsValue.str "2020-02-29", role := "CEO",
                  quote := some (JsValue.str "q"), joke := some (JsValue.str "j") })]) ∧
    (putEmployee
        [("id1", { firstName := JsValue.str "asf", lastName := JsValue.str "asdf",
                   hireDate := JsValue.str "2020-02-29", role := "CEO",
                   quote := some (JsValue.str "q"), joke := some (JsValue.str "j") })]
        { year := 2026, month := 10, day := 11 } "id1"
        [("firstName", JsValue.str "A"), ("lastName", JsValue.str "B"),
         ("hireDate", JsValue.str "2020-03-01"), ("role", JsValue.str "CEO"),
         ("quote", JsValue.str "qq"), ("joke", JsValue.str "jj")]).1.status ≠ 204 := by
  refine ⟨by decide, by decide⟩

/-- C1 amended: the role uniqueness check reads the store's state at
validation time, before the candidate record is persisted, and it does count
the record being replaced against itself — a PUT of an existing record with a
CEO role payload while any stored record (including that one) holds the CEO
role is answered 400 with the uniqueness message and leaves the store
unchanged. -/
theorem claim_C1_put_ceo_counts_self (db : Store) (now : CalDate) (id : String) (body : Record)
    (s : String)
    (hid : hasId db id = true)
    (hkeys : ∀ p ∈ db, p.1 ≠ "")
    (hceo : ∃ p ∈ db, strLower p.2.role = "ceo")
    (hpre : validateRecord body ((employeeFieldValidations db now).take 3) "PUT" = none)
    (hrole : getProp body "role" = JsValue.str s)
    (hlow : strLower s = "ceo") :
    putEmployee db now id body = ({ status := 400, result := some ceoUniquenessMessage }, db) := by
  have htru := ceoKeyTruthy_of_exists hkeys hceo
  have hrolefield := roleField_conflict (m := "PUT") hrole hlow htru
  have hval : validateEmployee db now body "PUT" = some ceoUniquenessMessage := by
    rw [validateEmployee_split]
    simp only [hpre, hrolefield]
  rw [putEmployee]
  simp [hid, hval]

/-- Witness for the amended C1: the concrete one-CEO store from the
counterexample, via the general theorem. -/
theorem claim_C1_put_ceo_counts_self_witness :
    putEmployee
        [("idA", { firstName := JsValue.str "f", lastName := JsValue.str "l",
                   hireDate := JsValue.str "2019-05-05", role := "CEO",
                   quote := some (JsValue.str "q"), joke := some (JsValue.str "j") })]
        { year := 2026, month := 10, day := 11 } "idA"
        [("firstName", JsValue.str "C"), ("lastName", JsValue.str "D"),
         ("hireDate", JsValue.str "2019-05-05"), ("role", JsValue.str "ceo"),
         ("quote", JsValue.str "q2"), ("joke", JsValue.str "j2")] =
      ({ status := 400, result := some ceoUniquenessMessage },
       [("idA", { firstName := JsValue.str "f", lastName := JsValue.str "l",
                  hireDate := JsValue.str "2019-05-05", role := "CEO",
                  quote := some (JsValue.str "q"), joke := some (JsValue.str "j") })]) := by
  exact claim_C1_put_ceo_counts_self _ _ "idA" _ "ceo"
    (by decide)
    (by intro p hp; rw [List.mem_singleton] at hp; subst hp; decide)
    (⟨_, List.mem_singleton.mpr rfl, by decide⟩)
    (by decide) (by decide) (by decide)

/-- C7 counterexample: creating a valid record whose role is `"ceo"` succeeds
(201), but fetching it returns a record whose role field is `"CEO"`, not the
input payload's `"ceo"` — the stored fields do not all equal the input
payload's fields, contrary to the claim. -/
theorem claim_C7_counterexample :
    (postEmployee []
        { year := 2026, month := 10, day := 11 }
        [("firstName", JsValue.str "A"), ("lastName", JsValue.str "B"),
         ("hireDate", JsValue.str "2020-03-01"), ("role", JsValue.str "ceo")]
        "id1" "QQ" "JJ").1 = { status := 201 } ∧
    getEmployeeById
        (postEmployee []
          { year := 2026, month := 10, day := 11 }
          [("firstName", JsValue.str "A"), ("lastName", JsValue.str "B"),
           ("hireDate", JsValue.str "2020-03-01"), ("role", JsValue.str "ceo")]
          "id1" "QQ" "JJ").2 "id1" =
      ({ status := 200 },
        some ({ firstName := JsValue.str "A", lastName := JsValue.str "B",
                hireDate := JsValue.str "2020-03-01", role := "CEO",
                quote := some (JsValue.str "QQ"), joke := some (JsValue.str "JJ") }, "id1")) ∧
    getProp
        [("firstName", JsValue.str "A"), ("lastName", JsValue.str "B"),
         ("hireDate", JsValue.str "2020-03-01"), ("role", JsValue.str "ceo")] "role" =
      JsValue.str "ceo" ∧
    JsValue.str "CEO" ≠ JsValue.str "ceo" := by
  refine ⟨by decide, by decide, by decide, by decide⟩

/-- C7 amended: creating a valid record and fetching it by the returned id
returns the input's firstName, lastName and hireDate unchanged, the input's
role converted to upper case, the generated identifier, and the externally
fetched quote and joke values. -/
theorem claim_C7_roundtrip_upper (db : Store) (now : CalDate) (body : Record) (newId : String)
    (quoteText jokeText : String)
    (hval : validateEmployee db now body "POST" = none) :
    ∃ s, getProp body "role" = JsValue.str s ∧
      postEmployee db now body newId quoteText jokeText =
        ({ status := 201 },
          setId db newId
            { firstName := getProp body "firstName", lastName := getProp body "lastName",
              hireDate := getProp body "hireDate", role := strUpper s,
              quote := some (JsValue.str quoteText), joke := some (JsValue.str jokeText) }) ∧
      getEmployeeById (postEmployee db now body newId quoteText jokeText).2 newId =
        ({ status := 200 },
          some ({ firstName := getProp body "firstName", lastName := getProp body "lastName",
                  hireDate := getProp body "hireDate", role := strUpper s,
                  quote := some (JsValue.str quoteText), joke := some (JsValue.str jokeText) }, newId)) := by
  have hmem : ({ fieldName := "role", options := roleOptions db } : FieldValidation) ∈
      employeeFieldValidations db now := by
    rw [employeeFieldValidations]
    exact List.mem_cons_of_mem _ (List.mem_cons_of_mem _ (List.mem_cons_of_mem _
      (List.mem_cons_self _ _)))
  have hrolefield := validateRecord_none_mem (by rwa [validateEmployee] at hval) _ hmem
  obtain ⟨s, hs, _, _⟩ := roleField_valid_inversion hrolefield
  have hpost : postEmployee db now body newId quoteText jokeText =
      ({ status := 201 },
        setId db newId
          { firstName := getProp body "firstName", lastName := getProp body "lastName",
            hireDate := getProp body "hireDate", role := strUpper s,
            quote := some (JsValue.str quoteText), joke := some (JsValue.str jokeText) }) := by
    rw [postEmployee]
    simp only [hval]
    simp [createDatabaseEntryFromReqBody, hs, jsToUpperString]
  refine ⟨s, hs, hpost, ?_⟩
  rw [hpost]
  exact getEmployeeById_setId db newId _

/-- Witness for the amended C7: a concrete create with role `"vp"` stores and
returns the record with role `"VP"`, the generated id, and the fetched quote
and joke. -/
theorem claim_C7_roundtrip_upper_witness :
    ∃ s, getProp
        [("firstName", JsValue.str "A"), ("lastName", JsValue.str "B"),
         ("hireDate", JsValue.str "2021-01-15"), ("role", JsValue.str "vp")] "role" =
      JsValue.str s ∧
    postEmployee []
        { year := 2026, month := 10, day := 11 }
        [("firstName", JsValue.str "A"), ("lastName", JsValue.str "B"),
         ("hireDate", JsValue.str "2021-01-15"), ("role", JsValue.str "vp")]
        "id9" "Qtext" "Jtext" =
      ({ status := 201 },
        setId []
          "id9"
          { firstName := getProp
              [("firstName", JsValue.str "A"), ("lastName", JsValue.str "B"),
               ("hireDate", JsValue.str "2021-01-15"), ("role", JsValue.str "vp")] "firstName",
            lastName := getProp
              [("firstName", JsValue.str "A"), ("lastName", JsValue.str "B"),
               ("hireDate", JsValue.str "2021-01-15"), ("role", JsValue.str "vp")] "lastName",
            hireDate := getProp
              [("firstName", JsValue.str "A"), ("lastName", JsValue.str "B"),
               ("hireDate", JsValue.str "2021-01-15"), ("role", JsValue.str "vp")] "hireDate",
            role := strUpper s,
            quote := some (JsValue.str "Qtext"), joke := some (JsValue.str "Jtext") }) ∧
    getEmployeeById
        (postEmployee []
          { year := 2026, month := 10, day := 11 }
          [("firstName", JsValue.str "A"), ("lastName", JsValue.str "B"),
           ("hireDate", JsValue.str "2021-01-15"), ("role", JsValue.str "vp")]
          "id9" "Qtext" "Jtext").2 "id9" =
      ({ status := 200 },
        some ({ firstName := getProp
                  [("firstName", JsValue.str "A"), ("lastName", JsValue.str "B"),
                   ("hireDate", JsValue.str "2021-01-15"), ("role", JsValue.str "vp")] "firstName",
                lastName := getProp
                  [("firstName", JsValue.str "A"), ("lastName", JsValue.str "B"),
                   ("hireDate", JsValue.str "2021-01-15"), ("role", JsValue.str "vp")] "lastName",
                hireDate := getProp
                  [("firstName", JsValue.str "A"), ("lastName", JsValue.str "B"),
                   ("hireDate", JsValue.str "2021-01-15"), ("role", JsValue.str "vp")] "hireDate",
                role := strUpper s,
                quote := some (JsValue.str "Qtext"), joke := some (JsValue.str "Jtext") }, "id9")) := by
  exact claim_C7_roundtrip_upper [] { year := 2026, month := 10, day := 11 }
    [("firstName", JsValue.str "A"), ("lastName", JsValue.str "B"),
     ("hireDate", JsValue.str "2021-01-15"), ("role", JsValue.str "vp")]
    "id9" "Qtext" "Jtext" (by decide)

/-- Every reachable store has only non-empty ids and at most one CEO record;
proved by induction over the route steps. -/
theorem reachable_store_inv {db : Store} (h : Reachable db) :
    (∀ p ∈ db, p.1 ≠ "") ∧ ceoCount db ≤ 1 := by
  induction h with
  | empty =>
      refine ⟨?_, by decide⟩
      intro p hp
      cases hp
  | post db now body newId quoteText jokeText hr hid ih =>
      cases hval : validateEmployee db now body "POST" with
      | some e =>
          have h2 : (postEmployee db now body newId quoteText jokeText).2 = db := by
            rw [postEmployee]
            simp [hval]
          rw [h2]
          exact ih
      | none =>
          have h2 : (postEmployee db now body newId quoteText jokeText).2 =
              setId db newId { createDatabaseEntryFromReqBody body with
                quote := some (JsValue.str quoteText), joke := some (JsValue.str jokeText) } := by
            rw [postEmployee]
            simp [hval]
          rw [h2]
          have hmem : ({ fieldName := "role", options := roleOptions db } : FieldValidation) ∈
              employeeFieldValidations db now := by
            rw [employeeFieldValidations]
            exact List.mem_cons_of_mem _ (List.mem_cons_of_mem _ (List.mem_cons_of_mem _
              (List.mem_cons_self _ _)))
          have hrolefield := validateRecord_none_mem (by rwa [validateEmployee] at hval) _ hmem
          obtain ⟨s, hs, _, hceo⟩ := roleField_valid_inversion hrolefield
          refine ⟨keys_setId ih.1 hid, ?_⟩
          by_cases hlow : strLower s = "ceo"
          · have h0 : ceoCount db = 0 := ceoCount_zero_of_not_truthy ih.1 (hceo hlow)
            exact ceoCount_setId_of_count_zero h0
          · have hnc : isCeoEmp { createDatabaseEntryFromReqBody body with
                quote := some (JsValue.str quoteText), joke := some (JsValue.str jokeText) } = false := by
              simp [isCeoEmp, createDatabaseEntryFromReqBody, hs, jsToUpperString, strLower_strUpper]
              exact hlow
            exact le_trans (ceoCount_setId_of_not_ceo hnc) ih.2
  | put db now id body hr ih =>
      by_cases hid : hasId db id = true
      · cases hval : validateEmployee db now body "PUT" with
        | some e =>
            have h2 : (putEmployee db now id body).2 = db := by
              rw [putEmployee]
              simp [hid, hval]
            rw [h2]
            exact ih
        | none =>
            have h2 : (putEmployee db now id body).2 =
                setId db id (createDatabaseEntryFromReqBody body) := by
              rw [putEmployee]
              simp [hid, hval]
            rw [h2]
            have hidne : id ≠ "" := by
              obtain ⟨p, hp, hpk⟩ := mem_of_hasId hid
              rw [← hpk]
              exact ih.1 p hp
            have hmem : ({ fieldName := "role", options := roleOptions db } : FieldValidation) ∈
                employeeFieldValidations db now := by
              rw [employeeFieldValidations]
              exact List.mem_cons_of_mem _ (List.mem_cons_of_mem _ (List.mem_cons_of_mem _
                (List.mem_cons_self _ _)))
            have hrolefield := validateRecord_none_mem (by rwa [validateEmployee] at hval) _ hmem
            obtain ⟨s, hs, _, hceo⟩ := roleField_valid_inversion hrolefield
            refine ⟨keys_setId ih.1 hidne, ?_⟩
            by_cases hlow : strLower s = "ceo"
            · have h0 : ceoCount db = 0 := ceoCount_zero_of_not_truthy ih.1 (hceo hlow)
              exact ceoCount_setId_of_count_zero h0
            · have hnc : isCeoEmp (createDatabaseEntryFromReqBody body) = false := by
                simp [isCeoEmp, createDatabaseEntryFromReqBody, hs, jsToUpperString, strLower_strUpper]
                exact hlow
              exact le_trans (ceoCount_setId_of_not_ceo hnc) ih.2
      · have h2 : (putEmployee db now id body).2 = db := by
          rw [putEmployee]
          have hfalse : hasId db id = false := by
            cases hx : hasId db id
            · rfl
            · exact absurd hx hid
          simp [hfalse]
        rw [h2]
        exact ih
  | del db id hr ih =>
      have h2 : (deleteEmployee db id).2 = if hasId db id then deleteId db id else db := rfl
      rw [h2]
      by_cases hid : hasId db id = true
      · rw [if_pos hid]
        exact ⟨keys_deleteId ih.1, le_trans (ceoCount_deleteId db id) ih.2⟩
      · rw [if_neg hid]
        exact ih

/-- C6: every store reachable from the empty store by the create, replace and
delete routes holds at most one CEO record (roles compared case-insensitively);
moreover on such a store an otherwise-valid create whose role lower-cases to
`"ceo"` is answered 400 with the uniqueness message and leaves the store
unchanged when a CEO already exists, while the first CEO creation succeeds
with 201 and stores the record. -/
theorem claim_C6_at_most_one_ceo (db : Store) (h : Reachable db) :
    ceoCount db ≤ 1 ∧
    (∀ (now : CalDate) (body : Record) (s : String) (newId quoteText jokeText : String),
        validateRecord body ((employeeFieldValidations db now).take 3) "POST" = none →
        getProp body "role" = JsValue.str s →
        strLower s = "ceo" →
        1 ≤ ceoCount db →
        postEmployee db now body newId quoteText jokeText =
          ({ status := 400, result := some ceoUniquenessMessage }, db)) ∧
    (∀ (now : CalDate) (body : Record) (s : String) (newId quoteText jokeText : String),
        validateRecord body ((employeeFieldValidations db now).take 3) "POST" = none →
        getProp body "role" = JsValue.str s →
        strLower s = "ceo" →
        validateRecord body ((employeeFieldValidations db now).drop 4) "POST" = none →
        ceoCount db = 0 →
        postEmployee db now body newId quoteText jokeText =
          ({ status := 201 },
            setId db newId { createDatabaseEntryFromReqBody body with
              quote := some (JsValue.str quoteText), joke := some (JsValue.str jokeText) })) := by
  have inv := reachable_store_inv h
  refine ⟨inv.2, ?_, ?_⟩
  · intro now body s newId quoteText jokeText hpre hrole hlow hcount
    have hexists : ∃ p ∈ db, strLower p.2.role = "ceo" := by
      have hne : db.filter (fun p => isCeoEmp p.2) ≠ [] := by
        intro hnil
        have hlen : ceoCount db = 0 := by
          rw [ceoCount, hnil]
          rfl
        omega
      obtain ⟨p, hp⟩ := List.exists_mem_of_ne_nil _ hne
      have hsplit := List.mem_filter.mp hp
      exact ⟨p, hsplit.1, by simpa [isCeoEmp] using hsplit.2⟩
    have htru := ceoKeyTruthy_of_exists inv.1 hexists
    have hrolefield := roleField_conflict (m := "POST") hrole hlow htru
    have hval : validateEmployee db now body "POST" = some ceoUniquenessMessage := by
      rw [validateEmployee_split]
      simp only [hpre, hrolefield]
    rw [postEmployee]
    simp [hval]
  · intro now body s newId quoteText jokeText hpre hrole hlow hdrop h0
    have htru : ceoKeyTruthy db = false := not_truthy_of_ceoCount_zero h0
    have hrolefield := roleField_first_ceo (m := "POST") hrole hlow htru
    have hval : validateEmployee db now body "POST" = none := by
      rw [validateEmployee_split]
      simp only [hpre, hrolefield]
      exact hdrop
    rw [postEmployee]
    simp [hval]

/-- Witness for C6: after creating a first CEO in the empty store, the
reachable store holds at most one CEO, and a second create with role `"ceo"`
is answered 400 with the uniqueness message and the store unchanged. -/
theorem claim_C6_at_most_one_ceo_witness :
    ceoCount (postEmployee []
        { year := 2026, month := 10, day := 11 }
        [("firstName", JsValue.str "A"), ("lastName", JsValue.str "B"),
         ("hireDate", JsValue.str "2020-03-01"), ("role", JsValue.str "CEO")]
        "id1" "QQ" "JJ").2 ≤ 1 ∧
    postEmployee
        (postEmployee []
          { year := 2026, month := 10, day := 11 }
          [("firstName", JsValue.str "A"), ("lastName", JsValue.str "B"),
           ("hireDate", JsValue.str "2020-03-01"), ("role", JsValue.str "CEO")]
          "id1" "QQ" "JJ").2
        { year := 2026, month := 10, day := 11 }
        [("firstName", JsValue.str "C"), ("lastName", JsValue.str "D"),
         ("hireDate", JsValue.str "2021-06-01"), ("role", JsValue.str "ceo")]
        "id2" "Q2" "J2" =
      ({ status := 400, result := some ceoUniquenessMessage },
        (postEmployee []
          { year := 2026, month := 10, day := 11 }
          [("firstName", JsValue.str "A"), ("lastName", JsValue.str "B"),
           ("hireDate", JsValue.str "2020-03-01"), ("role", JsValue.str "CEO")]
          "id1" "QQ" "JJ").2) := by
  have h := claim_C6_at_most_one_ceo _
    (Reachable.post [] { year := 2026, month := 10, day := 11 }
      [("firstName", JsValue.str "A"), ("lastName", JsValue.str "B"),
       ("hireDate", JsValue.str "2020-03-01"), ("role", JsValue.str "CEO")]
      "id1" "QQ" "JJ" Reachable.empty (by decide))
  exact ⟨h.1, h.2.1 { year := 2026, month := 10, day := 11 }
    [("firstName", JsValue.str "C"), ("lastName", JsValue.str "D"),
     ("hireDate", JsValue.str "2021-06-01"), ("role", JsValue.str "ceo")]
    "ceo" "id2" "Q2" "J2" (by decide) (by decide) (by decide) (by decide)⟩

end Claims

end EmployeesApi
